import Mathlib

/-
  Shallow embedding of src/cardgames.py (MyUmbrel/poker-game).

  The Python source uses rank strings with Card.RANKS.index as the rank
  value; here Rank is an inductive with Rank.index giving the same value.
  Python Card objects have no custom equality, so object equality is
  identity; since a fresh Deck holds exactly one object per (suit, rank)
  pair and the evaluator is only ever fed cards drawn from one deck,
  identity of card objects coincides with value equality on (suit, rank),
  which is how Card equality is modelled here.
-/

namespace CardGames

inductive Suit
  | Hearts
  | Spades
  | Diamonds
  | Clubs
deriving DecidableEq

inductive Rank
  | two
  | three
  | four
  | five
  | six
  | seven
  | eight
  | nine
  | ten
  | jack
  | queen
  | king
  | ace
deriving DecidableEq

/-- Card.RANKS.index of the rank string in the source: 2 maps to 0, A to 12. -/
def Rank.index : Rank → Nat
  | .two => 0
  | .three => 1
  | .four => 2
  | .five => 3
  | .six => 4
  | .seven => 5
  | .eight => 6
  | .nine => 7
  | .ten => 8
  | .jack => 9
  | .queen => 10
  | .king => 11
  | .ace => 12

structure Card where
  suit : Suit
  rank : Rank
deriving DecidableEq

def SUITS : List Suit :=
  [Suit.Hearts, Suit.Spades, Suit.Diamonds, Suit.Clubs]

def RANKS : List Rank :=
  [Rank.two, Rank.three, Rank.four, Rank.five, Rank.six, Rank.seven,
   Rank.eight, Rank.nine, Rank.ten, Rank.jack, Rank.queen, Rank.king, Rank.ace]

/-- Distinct elements of a list in first-occurrence order; models the key
order of a Python set or Counter built from the list. -/
def uniqueKeysAux {α : Type} [DecidableEq α] : List α → List α → List α
  | _, [] => []
  | seen, x :: xs =>
    if x ∈ seen then uniqueKeysAux seen xs
    else x :: uniqueKeysAux (x :: seen) xs

def uniqueKeys {α : Type} [DecidableEq α] (l : List α) : List α :=
  uniqueKeysAux [] l

/-- Poker.is_flush: len(set(suits)) == 1 over ALL given cards. -/
def is_flush (cards : List Card) : Bool :=
  (uniqueKeys (cards.map (fun c => c.suit))).length == 1

/-- Poker.is_straight: the sorted rank values of ALL given cards are
consecutive, or the sorted list equals the literal [12, 0, 1, 2, 3]
(the wheel check of the source, written there after sorting). -/
def is_straight (cards : List Card) : Bool :=
  let values := (cards.map (fun c => c.rank.index)).insertionSort (fun a b => a ≤ b)
  ((values.zip values.tail).all (fun p => p.2 - p.1 == 1)) || values == [12, 0, 1, 2, 3]

/-- Poker.get_counts: Counter(ranks).most_common(), i.e. (rank, count)
pairs in first-occurrence order, stably sorted by count descending. -/
def get_counts (cards : List Card) : List (Rank × Nat) :=
  let ranks := cards.map (fun c => c.rank)
  let items := (uniqueKeys ranks).map (fun r => (r, ranks.count r))
  items.insertionSort (fun a b => b.2 ≤ a.2)

/-- Poker.get_pairs: ranks whose count is exactly 2, first n_pairs of them. -/
def get_pairs (counts : List (Rank × Nat)) (n_pairs : Nat) : List Rank :=
  ((counts.filter (fun p => p.2 == 2)).map (fun p => p.1)).take n_pairs

/-- Poker.get_three_of_a_kind: first rank with count exactly 3, if any. -/
def get_three_of_a_kind (counts : List (Rank × Nat)) : Option Rank :=
  (counts.find? (fun p => p.2 == 3)).map (fun p => p.1)

/-- Poker.get_four_of_a_kind: first rank with count exactly 4, if any. -/
def get_four_of_a_kind (counts : List (Rank × Nat)) : Option Rank :=
  (counts.find? (fun p => p.2 == 4)).map (fun p => p.1)

/-- Poker.has_pair: the first rank paired exactly twice, if any. -/
def has_pair (all_cards : List Card) : Option Rank :=
  match get_pairs (get_counts all_cards) 1 with
  | p :: _ => some p
  | [] => none

/-- Poker.has_two_pairs: the first two ranks with count exactly 2, when
there are at least two of them. -/
def has_two_pairs (all_cards : List Card) : Option (Rank × Rank) :=
  match get_pairs (get_counts all_cards) 2 with
  | [p1, p2] => some (p1, p2)
  | _ => none

/-- Poker.has_three_of_a_kind. -/
def has_three_of_a_kind (all_cards : List Card) : Option Rank :=
  get_three_of_a_kind (get_counts all_cards)

/-- Poker.has_full_house: a rank with count exactly 3 together with a rank
of count exactly 2 (note: a second triple does NOT qualify as the pair). -/
def has_full_house (all_cards : List Card) : Option (Rank × Rank) :=
  match get_three_of_a_kind (get_counts all_cards),
        get_pairs (get_counts all_cards) 1 with
  | some t, p :: _ => some (t, p)
  | _, _ => none

/-- Poker.has_four_of_a_kind. -/
def has_four_of_a_kind (all_cards : List Card) : Option Rank :=
  get_four_of_a_kind (get_counts all_cards)

/-- sorted(cards, key=index, reverse=True): stable descending by rank value. -/
def sortedByRankDesc (cards : List Card) : List Card :=
  cards.insertionSort (fun a b => b.rank.index ≤ a.rank.index)

/-- Python max(hand, key=rank index): first element of maximal rank value. -/
def pyMaxByRank : List Card → Option Card
  | [] => none
  | c :: cs =>
    some (cs.foldl (fun acc x => if acc.rank.index < x.rank.index then x else acc) c)

/-- set(card.rank for card in cards) == set of the royal ranks. -/
def rankSetEqRoyal (cards : List Card) : Bool :=
  let rs := cards.map (fun c => c.rank)
  let royal : List Rank := [Rank.ten, Rank.jack, Rank.queen, Rank.king, Rank.ace]
  rs.all (fun r => royal.contains r) && royal.all (fun r => rs.contains r)

/-- Poker.evaluate_hand, parameterised over the function used for the
single self-call evaluate_hand([], board) that computes board_ranking.
The body mirrors the source cascade line by line. -/
def evaluate_hand_body
    (recurse : List Card → List Card → Nat × List Card)
    (hand board : List Card) : Nat × List Card :=
  match hand with
  | [] => (0, [])
  | _ :: _ =>
    let all_cards := hand ++ board
    let board_ranking := (recurse [] board).1
    if is_flush all_cards && is_straight all_cards then
      if rankSetEqRoyal all_cards then
        (11, all_cards)
      else
        if board_ranking ≤ 10 then (10, all_cards) else (board_ranking, [])
    else
      match has_four_of_a_kind all_cards with
      | some four_rank =>
        let four_cards := sortedByRankDesc (all_cards.filter (fun c => c.rank = four_rank))
        let remaining := (sortedByRankDesc (all_cards.filter (fun c => c.rank ≠ four_rank))).take 1
        (9, four_cards ++ remaining)
      | none =>
        match has_full_house all_cards with
        | some (three_rank, pair_rank) =>
          let three_cards := sortedByRankDesc (all_cards.filter (fun c => c.rank = three_rank))
          let pair_cards := sortedByRankDesc (all_cards.filter (fun c => c.rank = pair_rank))
          (8, three_cards ++ pair_cards)
        | none =>
          if is_flush all_cards then (7, all_cards)
          else if is_straight all_cards then (6, all_cards)
          else
            match has_three_of_a_kind all_cards with
            | some t => (5, all_cards.filter (fun c => c.rank = t))
            | none =>
              match has_two_pairs all_cards with
              | some (p1, p2) =>
                (4, all_cards.filter (fun c => c.rank = p1) ++
                    all_cards.filter (fun c => c.rank = p2))
              | none =>
                match has_pair all_cards with
                | some pr => (3, all_cards.filter (fun c => c.rank = pr))
                | none =>
                  match pyMaxByRank hand with
                  | some highest =>
                    if board_ranking ≤ 2 then (2, [highest]) else (board_ranking, [])
                  | none => (board_ranking, [])

/-- Poker.evaluate_hand. The source recurses exactly once, with hand = [],
and that inner call returns from the hand-empty branch before using any
further recursion, so two unrollings of the body give the exact function;
evaluate_hand_body_fix below checks the fixpoint equation. -/
def evaluate_hand (hand board : List Card) : Nat × List Card :=
  evaluate_hand_body (evaluate_hand_body (fun _ _ => (0, []))) hand board

theorem evaluate_hand_body_fix (hand board : List Card) :
    evaluate_hand hand board = evaluate_hand_body evaluate_hand hand board := by
  cases hand with
  | nil => rfl
  | cons a t => rfl

/-- itertools.combinations over a value list: all length-n subsequences,
in the order itertools enumerates them. -/
def combinations : List Nat → Nat → List (List Nat)
  | _, 0 => [[]]
  | [], _ + 1 => []
  | x :: xs, n + 1 =>
    ((combinations xs n).map (fun c => x :: c)) ++ combinations xs (n + 1)

/-- Python list and tuple less-than: lexicographic, shorter prefix smaller. -/
def pyListLt : List Nat → List Nat → Bool
  | [], [] => false
  | [], _ :: _ => true
  | _ :: _, [] => false
  | a :: xs, b :: ys => a < b || (a == b && pyListLt xs ys)

/-- Poker.best_five_cards: rank values sorted descending, all 5-element
combinations, and the lexicographically greatest one ([] if fewer than 5). -/
def best_five_cards (cards : List Card) : List Nat :=
  let card_values := (cards.map (fun c => c.rank.index)).insertionSort (fun a b => b ≤ a)
  match combinations card_values 5 with
  | [] => []
  | c :: cs => cs.foldl (fun best x => if pyListLt best x then x else best) c

/-- The key used by show_results: (category rank, best_five_cards of the
contributing cards). -/
def rank_key (r : Nat × List Card) : Nat × List Nat :=
  (r.1, best_five_cards r.2)

/-- Python tuple less-than on the showdown key. -/
def keyLt (p q : Nat × List Nat) : Bool :=
  p.1 < q.1 || (p.1 == q.1 && pyListLt p.2 q.2)

/-- Poker.show_results, reduced to its data: rankings of every player
(the source iterates over self.players, folded seats included), the max
by key where Python max keeps the first maximal element, and the indices
whose ranking tuple is EQUAL to the max tuple. -/
def show_results (hands : List (List Card)) (board : List Card) : List Nat :=
  let rankings := hands.map (fun h => evaluate_hand h board)
  match rankings with
  | [] => []
  | r :: rs =>
    let max_rank := rs.foldl (fun acc x => if keyLt (rank_key acc) (rank_key x) then x else acc) r
    (rankings.enum.filter (fun p => p.2 == max_rank)).map (fun p => p.1)

/-
  Player (src/cardgames.py lines 54-93). Chips and bets are Python ints,
  modelled as Int. Methods that can raise ValueError return none, and a
  raised error leaves the object unmodified because the raise happens
  before any field assignment.
-/

structure Player where
  chips : Int
  current_bet : Int
  is_active : Bool
deriving DecidableEq

/-- Player.bet: raises when amount exceeds chips; otherwise OVERWRITES
current_bet with amount and subtracts the full amount from chips. -/
def Player.bet (amount : Int) (p : Player) : Option Player :=
  if amount > p.chips then none
  else some { p with current_bet := amount, chips := p.chips - amount }

/-- Player.fold. -/
def Player.fold (p : Player) : Player :=
  { p with is_active := false }

/-- Player.all_in: bet(self.chips). -/
def Player.all_in (p : Player) : Option Player :=
  Player.bet p.chips p

/-- Player.call: all_in when amount exceeds chips, else bet(amount). -/
def Player.call (amount : Int) (p : Player) : Option Player :=
  if amount > p.chips then p.all_in else Player.bet amount p

/-- Player.raise_bet: raises when amount is at most current_bet,
else bet(amount). -/
def Player.raise_bet (amount : Int) (p : Player) : Option Player :=
  if amount ≤ p.current_bet then none else Player.bet amount p

inductive PlayerOp
  | betOp (amount : Int)
  | callOp (amount : Int)
  | raiseOp (amount : Int)
  | allInOp
  | foldOp

/-- One Player method invocation; a ValueError leaves the record as it was. -/
def Player.step (op : PlayerOp) (p : Player) : Player :=
  match op with
  | .betOp a => (Player.bet a p).getD p
  | .callOp a => (Player.call a p).getD p
  | .raiseOp a => (Player.raise_bet a p).getD p
  | .allInOp => p.all_in.getD p
  | .foldOp => p.fold

def Player.run (ops : List PlayerOp) (p : Player) : Player :=
  ops.foldl (fun q op => Player.step op q) p

/-
  Deck (src/cardgames.py lines 20-33). Deck.__init__ builds one card per
  (suit, rank) pair, suits outermost; draw_card(n) raises for n that is
  not a positive int or exceeds the remaining count, leaving the card
  list untouched, and otherwise removes the first n cards.
-/

/-- The card list built by Deck.__init__. -/
def deckCards : List Card :=
  SUITS.flatMap (fun s => RANKS.map (fun r => ⟨s, r⟩))

/-- Deck.draw_card: none models the raised ValueError, and the second
component is the card list after the call. -/
def draw_card (n : Int) (cards : List Card) : Option (List Card) × List Card :=
  if n ≤ 0 then (none, cards)
  else if (cards.length : Int) < n then (none, cards)
  else (some (cards.take n.toNat), cards.drop n.toNat)

/-- A sequence of draw_card calls; a failed draw changes nothing and the
drawn cards of the successful ones accumulate in order. -/
def drawSeq : List Int → List Card → List Card × List Card
  | [], cards => ([], cards)
  | n :: ns, cards =>
    match draw_card n cards with
    | (none, cards2) => drawSeq ns cards2
    | (some drawn, cards2) =>
      (drawn ++ (drawSeq ns cards2).1, (drawSeq ns cards2).2)

/-
  Poker.play (src/cardgames.py lines 238-255): control skeleton. The
  active-player counts returned by the successive betting_round calls
  decide which deal steps run; display_hands and show_results are
  executed unconditionally at the end.
-/

inductive GameEvent
  | dealHoleCards
  | bettingRound
  | dealCommunityCards
  | dealTurn
  | dealRiver
  | displayHands
  | showResults
deriving DecidableEq

/-- Poker.play with a1, a2, a3 the values betting_round returns after the
first three streets. -/
def play (a1 a2 a3 : Nat) : List GameEvent :=
  ([GameEvent.dealHoleCards, GameEvent.bettingRound] ++
    (if a1 > 1 then
      [GameEvent.dealCommunityCards, GameEvent.bettingRound] ++
        (if a2 > 1 then
          [GameEvent.dealTurn, GameEvent.bettingRound] ++
            (if a3 > 1 then [GameEvent.dealRiver, GameEvent.bettingRound] else [])
         else [])
     else [])) ++
  [GameEvent.displayHands, GameEvent.showResults]

/-
  Concrete inputs used by the claim theorems.
-/

def royalHole : List Card :=
  [⟨Suit.Spades, Rank.ace⟩, ⟨Suit.Spades, Rank.king⟩]

def royalBoard : List Card :=
  [⟨Suit.Spades, Rank.queen⟩, ⟨Suit.Spades, Rank.jack⟩, ⟨Suit.Spades, Rank.ten⟩,
   ⟨Suit.Hearts, Rank.two⟩, ⟨Suit.Diamonds, Rank.three⟩]

def tripTwosHole : List Card :=
  [⟨Suit.Clubs, Rank.two⟩, ⟨Suit.Diamonds, Rank.two⟩]

def wheelHole : List Card :=
  [⟨Suit.Hearts, Rank.ace⟩, ⟨Suit.Spades, Rank.two⟩]

def wheelBoard : List Card :=
  [⟨Suit.Diamonds, Rank.three⟩, ⟨Suit.Clubs, Rank.four⟩, ⟨Suit.Hearts, Rank.five⟩]

def sixHighHole : List Card :=
  [⟨Suit.Spades, Rank.two⟩, ⟨Suit.Diamonds, Rank.three⟩]

def sixHighBoard : List Card :=
  [⟨Suit.Clubs, Rank.four⟩, ⟨Suit.Hearts, Rank.five⟩, ⟨Suit.Spades, Rank.six⟩]

def doubleTripsHole : List Card :=
  [⟨Suit.Hearts, Rank.ace⟩, ⟨Suit.Spades, Rank.ace⟩]

def doubleTripsBoard : List Card :=
  [⟨Suit.Diamonds, Rank.ace⟩, ⟨Suit.Hearts, Rank.king⟩, ⟨Suit.Spades, Rank.king⟩,
   ⟨Suit.Diamonds, Rank.king⟩, ⟨Suit.Clubs, Rank.two⟩]

def kingsHoleA : List Card :=
  [⟨Suit.Hearts, Rank.king⟩, ⟨Suit.Spades, Rank.king⟩]

def kingsHoleB : List Card :=
  [⟨Suit.Diamonds, Rank.king⟩, ⟨Suit.Clubs, Rank.king⟩]

def tieBoard : List Card :=
  [⟨Suit.Hearts, Rank.two⟩, ⟨Suit.Diamonds, Rank.five⟩, ⟨Suit.Clubs, Rank.seven⟩,
   ⟨Suit.Spades, Rank.nine⟩, ⟨Suit.Hearts, Rank.jack⟩]

def royalFlushBoard : List Card :=
  [⟨Suit.Hearts, Rank.ten⟩, ⟨Suit.Hearts, Rank.jack⟩, ⟨Suit.Hearts, Rank.queen⟩,
   ⟨Suit.Hearts, Rank.king⟩, ⟨Suit.Hearts, Rank.ace⟩]

def lowBoard : List Card :=
  [⟨Suit.Clubs, Rank.two⟩, ⟨Suit.Diamonds, Rank.seven⟩, ⟨Suit.Hearts, Rank.nine⟩,
   ⟨Suit.Spades, Rank.jack⟩, ⟨Suit.Diamonds, Rank.four⟩]

def junkHole : List Card :=
  [⟨Suit.Clubs, Rank.two⟩, ⟨Suit.Diamonds, Rank.seven⟩]

def fhHole : List Card :=
  [⟨Suit.Hearts, Rank.nine⟩, ⟨Suit.Spades, Rank.nine⟩]

def fhBoardA : List Card :=
  [⟨Suit.Diamonds, Rank.nine⟩, ⟨Suit.Hearts, Rank.king⟩, ⟨Suit.Spades, Rank.king⟩,
   ⟨Suit.Hearts, Rank.queen⟩, ⟨Suit.Spades, Rank.queen⟩]

def fhBoardB : List Card :=
  [⟨Suit.Diamonds, Rank.nine⟩, ⟨Suit.Hearts, Rank.queen⟩, ⟨Suit.Spades, Rank.queen⟩,
   ⟨Suit.Hearts, Rank.king⟩, ⟨Suit.Spades, Rank.king⟩]

/-
  Claim theorems.
-/

/-- C1: the spec example hole = A spades, K spades with board Q spades,
J spades, 10 spades, 2 hearts, 3 diamonds must evaluate to Royal Flush
(category 11) and dominate every non royal flush hand at showdown. The
code instead scores it as High Card (category 2), because is_flush and
is_straight test ALL seven cards, and a player holding mere trip twos
beats it at showdown. -/
theorem royal_example_evaluates_high_card :
    evaluate_hand royalHole royalBoard = (2, [⟨Suit.Spades, Rank.ace⟩]) ∧
    (evaluate_hand royalHole royalBoard).1 ≠ 11 ∧
    (evaluate_hand tripTwosHole royalBoard).1 = 5 ∧
    show_results [royalHole, tripTwosHole] royalBoard = [1] := by
  decide

/-- C2: the wheel A 2 3 4 5 must be category Straight and tie-break below
the 6-high straight. The code classifies the wheel as High Card: after
sorting, the rank values are [0, 1, 2, 3, 12], which is neither
consecutive nor equal to the literal wheel pattern [12, 0, 1, 2, 3], so
the wheel branch of is_straight is unreachable; the 6-high straight is
recognized as category 6. -/
theorem wheel_straight_not_detected :
    is_straight (wheelHole ++ wheelBoard) = false ∧
    evaluate_hand wheelHole wheelBoard = (2, [⟨Suit.Hearts, Rank.ace⟩]) ∧
    (evaluate_hand wheelHole wheelBoard).1 ≠ 6 ∧
    (evaluate_hand sixHighHole sixHighBoard).1 = 6 := by
  decide

/-- C3: a card set with a rank appearing at least 3 times and a different
rank appearing at least 2 times must be reported as Full House, never as
Three of a Kind. On aces over trip kings (A A A K K K 2) the code
reports Three of a Kind (category 5) instead of Full House (category 8):
get_pairs only accepts ranks whose count is exactly 2, so the second
triple never qualifies as the pair of a full house. -/
theorem double_trips_not_full_house :
    evaluate_hand doubleTripsHole doubleTripsBoard =
      (5, [⟨Suit.Hearts, Rank.ace⟩, ⟨Suit.Spades, Rank.ace⟩, ⟨Suit.Diamonds, Rank.ace⟩]) ∧
    (evaluate_hand doubleTripsHole doubleTripsBoard).1 ≠ 8 := by
  decide

/-- C4: two players whose evaluate results carry the identical category
rank and identical tie-break key must both be returned as winners. Two
players each holding a pair of kings (different suits) have equal keys,
yet show_results compares raw ranking tuples with equality, the card
lists differ, and only the first player is returned. -/
theorem identical_key_tie_single_winner :
    rank_key (evaluate_hand kingsHoleA tieBoard) =
      rank_key (evaluate_hand kingsHoleB tieBoard) ∧
    (evaluate_hand kingsHoleA tieBoard).1 = (evaluate_hand kingsHoleB tieBoard).1 ∧
    show_results [kingsHoleA, kingsHoleB] tieBoard = [0] := by
  decide

/-- C5: with empty hole cards the evaluator must return the ranking of
the board alone. The code returns the fixed sentinel (0, []) for every
board, here both for a royal flush board and for a junk board, and a
player holding junk over the royal flush board is scored High Card 7
rather than at least the board ranking. -/
theorem empty_hole_fixed_sentinel :
    evaluate_hand [] royalFlushBoard = (0, []) ∧
    evaluate_hand [] lowBoard = (0, []) ∧
    evaluate_hand junkHole royalFlushBoard = (2, [⟨Suit.Diamonds, Rank.seven⟩]) := by
  decide

/-- C6: evaluate_hand must be invariant to input card order. Reordering
the board of a nines-full hand flips which qualifying pair Counter
yields first, so the full house is scored kings-up under one order and
queens-up under the other: same category rank, different tie-break key. -/
theorem evaluate_order_dependent :
    fhBoardA.Perm fhBoardB ∧
    (evaluate_hand fhHole fhBoardA).1 = (evaluate_hand fhHole fhBoardB).1 ∧
    best_five_cards (evaluate_hand fhHole fhBoardA).2 = [11, 11, 7, 7, 7] ∧
    best_five_cards (evaluate_hand fhHole fhBoardB).2 = [10, 10, 7, 7, 7] ∧
    best_five_cards (evaluate_hand fhHole fhBoardA).2 ≠
      best_five_cards (evaluate_hand fhHole fhBoardB).2 := by
  refine ⟨List.Perm.cons _ (@List.perm_append_comm Card
      [⟨Suit.Hearts, Rank.king⟩, ⟨Suit.Spades, Rank.king⟩]
      [⟨Suit.Hearts, Rank.queen⟩, ⟨Suit.Spades, Rank.queen⟩]), ?_, ?_, ?_, ?_⟩ <;> decide

/-- C7 counterexample: the claim says a call commits (street max bet
minus the already committed bet). A seat with 80 chips and 20 already
committed that calls a max bet of 30 should then hold 80 - 10 = 70
chips; Player.call commits the full 30, leaving 50. -/
theorem call_counterexample :
    Player.call 30 ⟨80, 20, true⟩ = some ⟨50, 30, true⟩ ∧
    (⟨50, 30, true⟩ : Player).chips ≠ 80 - (30 - 20) := by
  decide

/-- C7 amended: Player.call commits the FULL amount, overwriting
current_bet and subtracting amount from chips, whenever amount is at
most the stack; when amount exceeds the stack the seat goes all-in for
exactly its full remaining stack, and no error is raised either way. -/
theorem call_semantics (amount : Int) (p : Player) :
    (p.chips < amount →
      Player.call amount p =
        some { chips := 0, current_bet := p.chips, is_active := p.is_active }) ∧
    (amount ≤ p.chips →
      Player.call amount p =
        some { chips := p.chips - amount, current_bet := amount,
               is_active := p.is_active }) := by
  constructor
  · intro h
    simp only [Player.call, Player.all_in, Player.bet]
    rw [if_pos h, if_neg (lt_irrefl p.chips)]
    simp [Int.sub_self]
  · intro h
    simp only [Player.call, Player.bet]
    rw [if_neg (not_lt.mpr h), if_neg (not_lt.mpr h)]

/-- C7 witness: call_semantics at concrete seats. -/
theorem call_semantics_witness :
    Player.call 120 ⟨60, 10, true⟩ = some ⟨0, 60, true⟩ ∧
    Player.call 30 ⟨80, 20, true⟩ = some ⟨50, 30, true⟩ :=
  ⟨(call_semantics 120 ⟨60, 10, true⟩).1 (by decide),
   (call_semantics 30 ⟨80, 20, true⟩).2 (by decide)⟩

/-- C8: when all but one seat folds, showdown must be skipped with no
hand revealed or evaluated. Poker.play runs display_hands and
show_results unconditionally: whatever active counts the betting rounds
report, both events occur, in particular after a first round that leaves
a single active player. -/
theorem play_never_skips_showdown :
    (∀ a1 a2 a3 : Nat,
      GameEvent.showResults ∈ play a1 a2 a3 ∧
      GameEvent.displayHands ∈ play a1 a2 a3) ∧
    play 1 0 0 =
      [GameEvent.dealHoleCards, GameEvent.bettingRound,
       GameEvent.displayHands, GameEvent.showResults] := by
  constructor
  · intro a1 a2 a3
    constructor <;>
      exact List.mem_append.mpr (Or.inr (by simp))
  · rfl

/-
  Helper lemmas for the deck invariant (C9).
-/

/-- Joining the outcome of one draw_card call gives back the input list. -/
theorem draw_card_join (n : Int) (cards : List Card) :
    (match draw_card n cards with
     | (none, c2) => c2
     | (some d, c2) => d ++ c2) = cards := by
  unfold draw_card
  by_cases h1 : n ≤ 0
  · simp [h1]
  · by_cases h2 : (cards.length : Int) < n
    · simp [h1, h2]
    · simp [h1, h2]

/-- Drawn cards and remaining cards of any draw sequence rebuild the
starting list exactly. -/
theorem drawSeq_append (reqs : List Int) (cards : List Card) :
    (drawSeq reqs cards).1 ++ (drawSeq reqs cards).2 = cards := by
  induction reqs generalizing cards with
  | nil => simp [drawSeq]
  | cons n ns ih =>
    have hj := draw_card_join n cards
    cases hdc : draw_card n cards with
    | mk o c2 =>
      rw [hdc] at hj
      cases o with
      | none =>
        simp only [drawSeq, hdc]
        rw [ih c2]
        exact hj
      | some d =>
        simp only [drawSeq, hdc, List.append_assoc]
        rw [ih c2]
        exact hj

theorem deckCards_nodup : deckCards.Nodup := by decide

theorem deckCards_length : deckCards.length = 52 := by decide

/-- C9: after any sequence of draw_card calls on a fresh deck, the drawn
cards followed by the remaining cards are exactly the original 52-card
list, unique and duplicate free; and a draw of more cards than remain
fails, returning the deck unchanged. -/
theorem deck_draw_invariant :
    (∀ reqs : List Int,
      (drawSeq reqs deckCards).1 ++ (drawSeq reqs deckCards).2 = deckCards ∧
      ((drawSeq reqs deckCards).1 ++ (drawSeq reqs deckCards).2).Nodup ∧
      ((drawSeq reqs deckCards).1 ++ (drawSeq reqs deckCards).2).length = 52) ∧
    (∀ (n : Int) (cards : List Card), (cards.length : Int) < n →
      draw_card n cards = (none, cards)) := by
  constructor
  · intro reqs
    have h := drawSeq_append reqs deckCards
    refine ⟨h, ?_, ?_⟩
    · rw [h]; exact deckCards_nodup
    · rw [h]; exact deckCards_length
  · intro n cards h
    have h0 : (0 : Int) ≤ (cards.length : Int) := Int.natCast_nonneg _
    unfold draw_card
    rw [if_neg (by omega), if_pos h]

/-- C9 witness: deck_draw_invariant at a concrete draw sequence and a
concrete oversized draw. -/
theorem deck_draw_invariant_witness :
    ((drawSeq [2, 3, 1] deckCards).1 ++ (drawSeq [2, 3, 1] deckCards).2 = deckCards ∧
     ((drawSeq [2, 3, 1] deckCards).1 ++ (drawSeq [2, 3, 1] deckCards).2).Nodup ∧
     ((drawSeq [2, 3, 1] deckCards).1 ++ (drawSeq [2, 3, 1] deckCards).2).length = 52) ∧
    draw_card 60 deckCards = (none, deckCards) :=
  ⟨deck_draw_invariant.1 [2, 3, 1],
   deck_draw_invariant.2 60 deckCards (by decide)⟩

/-
  Helper lemmas for the Player chip invariant (C10).
-/

/-- One Player method never drives chips negative. -/
theorem step_chips_nonneg (op : PlayerOp) (p : Player) (h : 0 ≤ p.chips) :
    0 ≤ (Player.step op p).chips := by
  cases op with
  | betOp a =>
    simp only [Player.step, Player.bet]
    split
    · simpa using h
    · next hgt => simp only [Option.getD_some]; omega
  | callOp a =>
    simp only [Player.step, Player.call, Player.all_in, Player.bet]
    split
    · rw [if_neg (lt_irrefl p.chips)]
      simp only [Option.getD_some]
      omega
    · next hgt => simp only [Option.getD_some]; omega
  | raiseOp a =>
    simp only [Player.step, Player.raise_bet, Player.bet]
    split
    · simpa using h
    · split
      · simpa using h
      · next hgt => simp only [Option.getD_some]; omega
  | allInOp =>
    simp only [Player.step, Player.all_in, Player.bet]
    rw [if_neg (lt_irrefl p.chips)]
    simp only [Option.getD_some]
    omega
  | foldOp =>
    simpa [Player.step, Player.fold] using h

/-- No sequence of Player methods drives chips negative. -/
theorem run_chips_nonneg (ops : List PlayerOp) (p : Player) (h : 0 ≤ p.chips) :
    0 ≤ (Player.run ops p).chips := by
  induction ops generalizing p with
  | nil => simpa [Player.run] using h
  | cons op ops ih =>
    simp only [Player.run, List.foldl_cons]
    exact ih (Player.step op p) (step_chips_nonneg op p h)

/-- C10: across any sequence of bet, call, raise_bet, all_in, fold, a
Player starting with nonnegative chips never goes negative; bet fails
without touching the record when the amount exceeds the stack; call with
an over-stack amount becomes an all-in of exactly the remaining chips. -/
theorem player_invariants :
    (∀ (ops : List PlayerOp) (p : Player), 0 ≤ p.chips →
      0 ≤ (Player.run ops p).chips) ∧
    (∀ (a : Int) (p : Player), p.chips < a → Player.bet a p = none) ∧
    (∀ (a : Int) (p : Player), p.chips < a →
      Player.call a p =
        some { chips := 0, current_bet := p.chips, is_active := p.is_active }) := by
  refine ⟨run_chips_nonneg, ?_, ?_⟩
  · intro a p h
    simp only [Player.bet]
    rw [if_pos h]
  · intro a p h
    simp only [Player.call, Player.all_in, Player.bet]
    rw [if_pos h, if_neg (lt_irrefl p.chips)]
    simp [Int.sub_self]

/-- C10 witness: player_invariants at a concrete seat and sequence. -/
theorem player_invariants_witness :
    0 ≤ (Player.run [PlayerOp.betOp 40, PlayerOp.callOp 70, PlayerOp.foldOp]
          ⟨100, 0, true⟩).chips ∧
    Player.bet 101 ⟨100, 0, true⟩ = none ∧
    Player.call 200 ⟨50, 5, true⟩ = some ⟨0, 50, true⟩ :=
  ⟨player_invariants.1 [PlayerOp.betOp 40, PlayerOp.callOp 70, PlayerOp.foldOp]
      ⟨100, 0, true⟩ (by decide),
   player_invariants.2.1 101 ⟨100, 0, true⟩ (by decide),
   player_invariants.2.2 200 ⟨50, 5, true⟩ (by decide)⟩

end CardGames
